import Mathlib

/-!
Verification of the merge-and-annotate pipeline of `main.py` (pdf_tools).

The program concatenates the PDF files of a directory into one document,
optionally inserting a blank separator page after each source file, stamps a
footer with running page numbers onto every page, and records a bookmark
(outline) entry at the first page of each merged source file.

The embedding below models the program's own logic faithfully; the external
PDF toolkit primitives (read pages, write pages, composite two pages, draw a
text string on a fresh page, serialize an outline) are modelled by their
documented semantics, exactly as the specification treats them: an external
capability, not reimplemented.  Machine state touched by the program is the
file system, modelled as a map from path names to PDF files; fallible
operations (opening an unreadable file, a failing overlay generation) are
modelled by explicit readability/success parameters, and an uncaught Python
exception is modelled by an `ok := false` result carrying the file-system
state at the point the exception was raised.
-/

namespace PdfTools

/-- A text item drawn by the overlay generator: the drawn string together with
the font, size, fill color and position (in units of reportlab's `mm`) used by
`canvas.setFont` / `canvas.setFillColor` / `canvas.drawString`. -/
structure Stamp where
  text : String
  font : String
  fontSize : Nat
  color : String
  xMm : Int
  yMm : Int
deriving Repr, DecidableEq

/-- Where a page's underlying (opaque) content comes from: a page of a source
PDF (identified by the source document name and the page's index in it), the
blank A4-format page produced by `writer.add_blank_page(210*mm, 279*mm)`
(dimensions recorded in `mm`), or a fresh empty canvas page of the overlay. -/
inductive Origin where
  | srcPage (doc : String) (idx : Nat)
  | blankA4 (wMm hMm : Nat)
  | freshOverlay
deriving Repr, DecidableEq

/-- A PDF page: opaque base content (its origin) plus the list of overlay
stamps that have been composited on top of it by `page.merge_page`. -/
structure Page where
  origin : Origin
  stamps : List Stamp
deriving Repr, DecidableEq

/-- `page.merge_page(number_layer)`: layer the overlay page's drawn content on
top of the page, leaving the original content in place. -/
def Page.mergeOver (p layer : Page) : Page :=
  { p with stamps := p.stamps ++ layer.stamps }

/-- A PDF file on disk: its ordered pages and its outline (bookmark) table of
`(page_number, title)` entries. -/
structure PdfFile where
  pages : List Page
  outline : List (Nat × String)
deriving Repr, DecidableEq

/-- The file system: a map from path name to the PDF file stored there. -/
abbrev FS := String → Option PdfFile

/-- Writing a file (`open(path, "wb")` followed by `writer.write`). -/
def FS.write (fs : FS) (name : String) (f : PdfFile) : FS :=
  fun p => if p = name then some f else fs p

/-- `os.remove(path)`. -/
def FS.remove (fs : FS) (name : String) : FS :=
  fun p => if p = name then none else fs p

/-- The empty file system. -/
def fsEmpty : FS := fun _ => none

/-- The footer stamp drawn on overlay page `i` (1-based) of `num`:
`c.drawString((210 // 2) * mm - 20 * mm, 4 * mm, text + f" page i of num")`
after `c.setFont("Times-Roman", 11)` and `c.setFillColor(grey)`. -/
def footerStamp (text : String) (i num : Nat) : Stamp :=
  { text := text ++ " page " ++ toString i ++ " of " ++ toString num
    font := "Times-Roman"
    fontSize := 11
    color := "grey"
    xMm := 210 / 2 - 20
    yMm := 4 }

/-- `create_page_pdf(num, tmp, text)`: the overlay document's pages.  The
canvas emits one page per `c.showPage()` call, i.e. one per loop iteration
`i in range(1, num + 1)`, each carrying exactly the footer stamp for `i`. -/
def create_page_pdf (num : Nat) (text : String) : List Page :=
  (List.range num).map fun j => ⟨Origin.freshOverlay, [footerStamp text (j + 1) num]⟩

/-- A PDF file of a source directory, as enumerated by
`Path(src_dir).glob("*.pdf")`: its file name, its page count, and whether
`open(path, "rb")` succeeds on it (an unreadable file raises). -/
structure SrcPdf where
  name : String
  numPages : Nat
  readable : Bool
deriving Repr, DecidableEq

/-- The ordered pages of a source PDF file (opaque content). -/
def SrcPdf.doc (d : SrcPdf) : List Page :=
  (List.range d.numPages).map fun j => ⟨Origin.srcPage d.name j, []⟩

/-- The fixed temporary path `"--tmp.pdf"` used for the blank-page template. -/
def blankTmpPath : String := "--tmp.pdf"

/-- The fixed temporary path `"__tmp.pdf"` used for the overlay helper file. -/
def overlayTmpPath : String := "__tmp.pdf"

/-- The fixed temporary path `"./tmp.pdf"` used by the driver for the
intermediate merged file. -/
def mergedTmpPath : String := "./tmp.pdf"

/-- The one-page blank A4-format page written by `create_blank_page`. -/
def blankPage : Page := ⟨Origin.blankA4 210 279, []⟩

/-- The file written by `create_blank_page`: one blank page, no outline. -/
def blankFile : PdfFile := ⟨[blankPage], []⟩

/-- `create_blank_page(dst_pdf_path)`: write a fresh one-page blank PDF. -/
def create_blank_page (fs : FS) (dst_pdf_path : String) : FS :=
  FS.write fs dst_pdf_path blankFile

/-- File-system events of a merge run, used to state when and how often the
blank template is generated and appended. -/
inductive Ev where
  | createBlank (path : String)
  | appendSrc (name : String)
  | appendBlankFrom (path : String)
  | writeMerged (path : String)
  | removeFile (path : String)
deriving Repr, DecidableEq

/-- State of the `for path in input_path.glob("*.pdf")` loop of
`merge_pdf_list`: whether the loop ran to completion without an exception, the
merger's accumulated pages (`merger.pages`), the accumulated `bookmarks` list,
and the event trace so far. -/
structure LoopState where
  ok : Bool
  pages : List Page
  bms : List (Nat × String)
  tr : List Ev

/-- The body of `merge_pdf_list`'s loop.  For each source file, in enumeration
order: first `bookmarks.append((len(merger.pages), path.name))`, then open the
file (raising if unreadable) and `merger.append` its pages, then, when
`with_blank` is set, re-open the blank template file and append its pages.  An
exception stops the loop with `ok := false`. -/
def mergeLoop (fs : FS) (with_blank : Bool) :
    List SrcPdf → List Page → List (Nat × String) → List Ev → LoopState
  | [], pages, bms, tr => ⟨true, pages, bms, tr⟩
  | d :: rest, pages, bms, tr =>
    let bms2 := bms ++ [(pages.length, d.name)]
    if d.readable then
      let pages2 := pages ++ d.doc
      let tr2 := tr ++ [Ev.appendSrc d.name]
      if with_blank then
        match fs blankTmpPath with
        | some bf =>
          mergeLoop fs with_blank rest (pages2 ++ bf.pages) bms2
            (tr2 ++ [Ev.appendBlankFrom blankTmpPath])
        | none => ⟨false, pages2, bms2, tr2⟩
      else
        mergeLoop fs with_blank rest pages2 bms2 tr2
    else
      ⟨false, pages, bms2, tr⟩

/-- Result of a `merge_pdf_list` run: whether it returned normally, the
returned `bookmarks` list, the merger's pages, the final file system, and the
event trace.  On `ok := false` the fields hold the state at the exception. -/
structure MergeResult where
  ok : Bool
  bookmarks : List (Nat × String)
  merged : List Page
  fs : FS
  trace : List Ev

/-- `merge_pdf_list(src_dir, dst_pdf_path, with_blank)`.  The directory
enumeration is abstracted as the glob-ordered list `docs`.  When `with_blank`
is set the blank template is created (once) before the loop; after a
successful loop the merger's pages are written to `dst_pdf_path` (with the
outline entries `merger.append` recorded, equal to the bookmark list) and the
blank template is removed.  On an exception nothing after the raising point
runs. -/
def merge_pdf_list (docs : List SrcPdf) (dst_pdf_path : String)
    (with_blank : Bool) (fs0 : FS) : MergeResult :=
  let fs1 := if with_blank then create_blank_page fs0 blankTmpPath else fs0
  let tr0 := if with_blank then [Ev.createBlank blankTmpPath] else []
  let st := mergeLoop fs1 with_blank docs [] [] tr0
  if st.ok then
    let fs2 := FS.write fs1 dst_pdf_path ⟨st.pages, st.bms⟩
    let fs3 := if with_blank then FS.remove fs2 blankTmpPath else fs2
    ⟨true, st.bms, st.pages,
      fs3, st.tr ++ [Ev.writeMerged dst_pdf_path] ++
        (if with_blank then [Ev.removeFile blankTmpPath] else [])⟩
  else
    ⟨false, st.bms, st.pages, fs1, st.tr⟩

/-- Default page for out-of-range `getD` reads; never reached when the index
is in range (in the source an out-of-range read would raise `IndexError`). -/
def dfltPage : Page := ⟨Origin.freshOverlay, []⟩

/-- The `for p in range(n)` loop of `add_page_numbers`: composite input page
`p` with overlay page `p` and add the result to the writer. -/
def stampedPages (doc overlay : List Page) : List Page :=
  (List.range doc.length).map fun p =>
    Page.mergeOver (doc.getD p dfltPage) (overlay.getD p dfltPage)

/-- Result of an `add_page_numbers` run: whether it returned normally, whether
the destination write executed, and the final file system. -/
structure AnnotResult where
  ok : Bool
  wrote : Bool
  fs : FS

/-- `add_page_numbers(pdf_path, new_path, text, bookmarks)`.  Opens the input
(raising if absent/unreadable), reads its page count `n`, generates the n-page
overlay into `"__tmp.pdf"` (the parameter `overlay_ok` models whether overlay
generation succeeds, e.g. a valid font resource; on failure reportlab raises
before `c.save()`, so no overlay file is written), composites page `p` of the
input with page `p` of the overlay, re-attaches the given bookmarks as the
outline, writes the destination only when the writer holds at least one page,
and finally removes the overlay helper file. -/
def add_page_numbers (pdf_path new_path text : String)
    (bookmarks : List (Nat × String)) (overlay_ok : Bool) (fs : FS) :
    AnnotResult :=
  match fs pdf_path with
  | none => ⟨false, false, fs⟩
  | some file =>
    if overlay_ok then
      let n := file.pages.length
      let fs1 := FS.write fs overlayTmpPath ⟨create_page_pdf n text, []⟩
      match fs1 overlayTmpPath with
      | none => ⟨false, false, fs1⟩
      | some numberPdf =>
        let outPages := stampedPages file.pages numberPdf.pages
        if 0 < outPages.length then
          ⟨true, true,
            FS.remove (FS.write fs1 new_path ⟨outPages, bookmarks⟩) overlayTmpPath⟩
        else
          ⟨true, false, FS.remove fs1 overlayTmpPath⟩
    else
      ⟨false, false, fs⟩

/-- Result of a full driver run. -/
structure RunResult where
  ok : Bool
  fs : FS

/-- The `__main__` driver: merge into the fixed intermediate path
`"./tmp.pdf"`, then annotate into the user's output path, then remove the
intermediate file.  A stage exception aborts the run at that point. -/
def run_main (docs : List SrcPdf) (output_path footer_text : String)
    (add_blank overlay_ok : Bool) (fs0 : FS) : RunResult :=
  let m := merge_pdf_list docs mergedTmpPath add_blank fs0
  if m.ok then
    let a := add_page_numbers mergedTmpPath output_path footer_text
      m.bookmarks overlay_ok m.fs
    if a.ok then ⟨true, FS.remove a.fs mergedTmpPath⟩ else ⟨false, a.fs⟩
  else
    ⟨false, m.fs⟩

/-- Closed form of the merged page sequence produced by a successful loop:
each source document's pages, followed by one copy of the blank template page
when blank-insertion is enabled. -/
def mergedOf (wb : Bool) : List SrcPdf → List Page
  | [] => []
  | d :: rest => (d.doc ++ if wb then [blankPage] else []) ++ mergedOf wb rest

/-- Closed form of the bookmark list produced by a successful loop starting at
page cursor `start`. -/
def bmOf (wb : Bool) (start : Nat) : List SrcPdf → List (Nat × String)
  | [] => []
  | d :: rest =>
    (start, d.name) :: bmOf wb (start + (d.numPages + if wb then 1 else 0)) rest

/-- Closed form of the event trace produced by a successful loop. -/
def trOf (wb : Bool) : List SrcPdf → List Ev
  | [] => []
  | d :: rest =>
    (Ev.appendSrc d.name :: if wb then [Ev.appendBlankFrom blankTmpPath] else [])
      ++ trOf wb rest

/-- Closed form of the file system after a successful `merge_pdf_list` run. -/
def mergeFsOk (fs0 : FS) (dst : String) (wb : Bool) (docs : List SrcPdf) : FS :=
  let fs1 := if wb then FS.write fs0 blankTmpPath blankFile else fs0
  let fs2 := FS.write fs1 dst ⟨mergedOf wb docs, bmOf wb 0 docs⟩
  if wb then FS.remove fs2 blankTmpPath else fs2

/-- Closed form of the event trace of a successful `merge_pdf_list` run. -/
def mergeTrOk (dst : String) (wb : Bool) (docs : List SrcPdf) : List Ev :=
  (if wb then [Ev.createBlank blankTmpPath] else []) ++ trOf wb docs
    ++ [Ev.writeMerged dst] ++ (if wb then [Ev.removeFile blankTmpPath] else [])

/-- Closed form of the file system after a successful `add_page_numbers` run
on an input file `file`. -/
def annotFsOk (fs : FS) (new_path text : String)
    (bookmarks : List (Nat × String)) (file : PdfFile) : FS :=
  let ov : PdfFile := ⟨create_page_pdf file.pages.length text, []⟩
  let fs1 := FS.write fs overlayTmpPath ov
  if 0 < file.pages.length then
    FS.remove
      (FS.write fs1 new_path ⟨stampedPages file.pages ov.pages, bookmarks⟩)
      overlayTmpPath
  else
    FS.remove fs1 overlayTmpPath

@[simp] theorem SrcPdf.length_doc (d : SrcPdf) : d.doc.length = d.numPages := by
  simp [SrcPdf.doc]

@[simp] theorem length_create_page_pdf (n : Nat) (text : String) :
    (create_page_pdf n text).length = n := by
  simp [create_page_pdf]

@[simp] theorem length_stampedPages (doc ov : List Page) :
    (stampedPages doc ov).length = doc.length := by
  simp [stampedPages]

theorem getElem?_create_page_pdf (n : Nat) (text : String) (i : Nat) (hi : i < n) :
    (create_page_pdf n text)[i]? =
      some ⟨Origin.freshOverlay, [footerStamp text (i + 1) n]⟩ := by
  simp [create_page_pdf, List.getElem?_range hi]

theorem getElem?_stampedPages (doc ov : List Page) (i : Nat)
    (hi : i < doc.length) (hio : i < ov.length) :
    (stampedPages doc ov)[i]? = some (Page.mergeOver doc[i] ov[i]) := by
  simp [stampedPages, List.getElem?_range hi, List.getElem?_eq_getElem hi,
    List.getElem?_eq_getElem hio]

theorem mergeLoop_ok (fs : FS) (wb : Bool)
    (hbf : wb = true → fs blankTmpPath = some blankFile) :
    ∀ (docs : List SrcPdf), (∀ d ∈ docs, d.readable = true) →
      ∀ (pages : List Page) (bms : List (Nat × String)) (tr : List Ev),
        mergeLoop fs wb docs pages bms tr =
          ⟨true, pages ++ mergedOf wb docs, bms ++ bmOf wb pages.length docs,
            tr ++ trOf wb docs⟩ := by
  intro docs
  induction docs with
  | nil => intro _ pages bms tr; simp [mergeLoop, mergedOf, bmOf, trOf]
  | cons d rest ih =>
    intro h pages bms tr
    have hd : d.readable = true := h d (List.mem_cons_self d rest)
    have hrest : ∀ x ∈ rest, x.readable = true := fun x hx => h x (List.mem_cons_of_mem d hx)
    cases wb with
    | false =>
      simp only [mergeLoop, hd, if_true, Bool.false_eq_true, if_false]
      rw [ih hrest]
      simp [mergedOf, bmOf, trOf, List.append_assoc]
    | true =>
      simp only [mergeLoop, hd, if_true, hbf rfl]
      rw [ih hrest]
      simp [mergedOf, bmOf, trOf, blankFile, List.append_assoc, Nat.add_assoc]

theorem merge_spec (docs : List SrcPdf) (dst : String) (wb : Bool) (fs0 : FS)
    (hr : ∀ d ∈ docs, d.readable = true) :
    merge_pdf_list docs dst wb fs0 =
      ⟨true, bmOf wb 0 docs, mergedOf wb docs, mergeFsOk fs0 dst wb docs,
        mergeTrOk dst wb docs⟩ := by
  cases wb with
  | false =>
    simp only [merge_pdf_list, Bool.false_eq_true, if_false]
    rw [mergeLoop_ok fs0 false (by simp) docs hr]
    simp [mergeFsOk, mergeTrOk]
  | true =>
    simp only [merge_pdf_list, if_true]
    rw [mergeLoop_ok (create_blank_page fs0 blankTmpPath) true
      (fun _ => by simp [create_blank_page, FS.write]) docs hr]
    simp [mergeFsOk, mergeTrOk, create_blank_page]

@[simp] theorem length_bmOf (wb : Bool) (docs : List SrcPdf) :
    ∀ start, (bmOf wb start docs).length = docs.length := by
  induction docs with
  | nil => intro start; simp [bmOf]
  | cons d rest ih => intro start; simp [bmOf, ih]

@[simp] theorem length_mergedOf (wb : Bool) (docs : List SrcPdf) :
    (mergedOf wb docs).length =
      (docs.map fun d => d.numPages + if wb then 1 else 0).sum := by
  induction docs with
  | nil => simp [mergedOf]
  | cons d rest ih =>
    cases wb with
    | false => simp [mergedOf, ih]
    | true => simp [mergedOf, ih]; omega

theorem bmOf_getElem? (wb : Bool) (docs : List SrcPdf) :
    ∀ (start i : Nat) (hi : i < docs.length),
      (bmOf wb start docs)[i]? =
        some (start + ((docs.take i).map fun d => d.numPages + if wb then 1 else 0).sum,
          docs[i].name) := by
  induction docs with
  | nil => intro start i hi; simp at hi
  | cons d rest ih =>
    intro start i hi
    cases i with
    | zero => simp [bmOf]
    | succ j =>
      have hj : j < rest.length := by simpa using hi
      simp [bmOf, ih _ j hj, Nat.add_assoc]

theorem bmOf_map_snd (wb : Bool) (docs : List SrcPdf) :
    ∀ start, (bmOf wb start docs).map Prod.snd = docs.map SrcPdf.name := by
  induction docs with
  | nil => intro start; simp [bmOf]
  | cons d rest ih => intro start; simp [bmOf, ih]

theorem bmOf_fst_le (wb : Bool) (docs : List SrcPdf) :
    ∀ start, ∀ e ∈ bmOf wb start docs, start ≤ e.1 := by
  induction docs with
  | nil => intro start e he; simp [bmOf] at he
  | cons d rest ih =>
    intro start e he
    simp only [bmOf, List.mem_cons] at he
    rcases he with rfl | he
    · exact Nat.le_refl _
    · exact Nat.le_trans (Nat.le_add_right _ _) (ih _ e he)

theorem bmOf_pairwise_le (wb : Bool) (docs : List SrcPdf) :
    ∀ start, List.Pairwise (fun a b : Nat × String => a.1 ≤ b.1) (bmOf wb start docs) := by
  induction docs with
  | nil => intro start; simp [bmOf]
  | cons d rest ih =>
    intro start
    simp only [bmOf, List.pairwise_cons]
    exact ⟨fun b hb => Nat.le_trans (Nat.le_add_right _ _) (bmOf_fst_le wb rest _ b hb),
      ih _⟩

theorem bmOf_pairwise_lt (wb : Bool) (docs : List SrcPdf)
    (hpos : ∀ d ∈ docs, 0 < d.numPages + if wb then 1 else 0) :
    ∀ start, List.Pairwise (fun a b : Nat × String => a.1 < b.1) (bmOf wb start docs) := by
  induction docs with
  | nil => intro start; simp [bmOf]
  | cons d rest ih =>
    intro start
    simp only [bmOf, List.pairwise_cons]
    refine ⟨fun b hb => ?_, ih (fun x hx => hpos x (List.mem_cons_of_mem d hx)) _⟩
    have h1 : start < start + (d.numPages + if wb then 1 else 0) :=
      Nat.lt_add_of_pos_right (hpos d (List.mem_cons_self d rest))
    exact Nat.lt_of_lt_of_le h1 (bmOf_fst_le wb rest _ b hb)

theorem trOf_true_mem (docs : List SrcPdf) :
    ∀ e ∈ trOf true docs,
      (∃ d, e = Ev.appendSrc d) ∨ e = Ev.appendBlankFrom blankTmpPath := by
  induction docs with
  | nil => intro e he; simp [trOf] at he
  | cons d rest ih =>
    intro e he
    simp [trOf] at he
    rcases he with rfl | rfl | he
    · exact Or.inl ⟨d.name, rfl⟩
    · exact Or.inr rfl
    · exact ih e he

theorem mergeFsOk_dst (fs0 : FS) (dst : String) (wb : Bool) (docs : List SrcPdf)
    (hdst : dst ≠ blankTmpPath) :
    mergeFsOk fs0 dst wb docs dst = some ⟨mergedOf wb docs, bmOf wb 0 docs⟩ := by
  cases wb <;> simp [mergeFsOk, FS.write, FS.remove, hdst]

theorem mergeFsOk_blankTmp (fs0 : FS) (dst : String) (wb : Bool) (docs : List SrcPdf)
    (h0b : fs0 blankTmpPath = none) (hd : blankTmpPath ≠ dst) :
    mergeFsOk fs0 dst wb docs blankTmpPath = none := by
  cases wb <;> simp [mergeFsOk, FS.write, FS.remove, hd, h0b]

theorem annot_spec (pdf_path new_path text : String) (bms : List (Nat × String))
    (fs : FS) (file : PdfFile) (hfile : fs pdf_path = some file) :
    add_page_numbers pdf_path new_path text bms true fs =
      ⟨true, decide (0 < file.pages.length), annotFsOk fs new_path text bms file⟩ := by
  unfold add_page_numbers
  rw [hfile]
  have h1 : (FS.write fs overlayTmpPath ⟨create_page_pdf file.pages.length text, []⟩)
      overlayTmpPath = some ⟨create_page_pdf file.pages.length text, []⟩ := by
    simp [FS.write]
  simp only [if_true, h1]
  by_cases hn : 0 < file.pages.length
  · simp [hn, annotFsOk]
  · simp [hn, annotFsOk]

theorem annotFsOk_new (fs : FS) (new_path text : String) (bms : List (Nat × String))
    (file : PdfFile) (hnew : new_path ≠ overlayTmpPath) (hpos : 0 < file.pages.length) :
    annotFsOk fs new_path text bms file new_path =
      some ⟨stampedPages file.pages (create_page_pdf file.pages.length text), bms⟩ := by
  simp [annotFsOk, hpos, FS.remove, FS.write, hnew]

theorem annotFsOk_new_skip (fs : FS) (new_path text : String) (bms : List (Nat × String))
    (file : PdfFile) (hnew : new_path ≠ overlayTmpPath) (hzero : file.pages.length = 0) :
    annotFsOk fs new_path text bms file new_path = fs new_path := by
  simp [annotFsOk, hzero, FS.remove, FS.write, hnew]

theorem annotFsOk_overlayTmp (fs : FS) (new_path text : String)
    (bms : List (Nat × String)) (file : PdfFile) :
    annotFsOk fs new_path text bms file overlayTmpPath = none := by
  by_cases hn : 0 < file.pages.length <;> simp [annotFsOk, hn, FS.remove]

theorem annotFsOk_other (fs : FS) (new_path text : String) (bms : List (Nat × String))
    (file : PdfFile) (p : String) (hp1 : p ≠ new_path) (hp2 : p ≠ overlayTmpPath) :
    annotFsOk fs new_path text bms file p = fs p := by
  by_cases hn : 0 < file.pages.length <;>
    simp [annotFsOk, hn, FS.remove, FS.write, hp1, hp2]

/-- Claim C1: for every run of `merge_pdf_list`, the i-th entry of the returned
bookmark list is the pair whose first component is the cumulative page count of
all source documents merged before document i (plus one separator page per
preceding document when blank-insertion is enabled) and whose second component
is that document's file name, and the entries appear in the same order the
documents were enumerated. -/
theorem claim_C1 (docs : List SrcPdf) (dst : String) (wb : Bool) (fs0 : FS)
    (hr : ∀ d ∈ docs, d.readable = true) :
    (merge_pdf_list docs dst wb fs0).bookmarks.length = docs.length ∧
    ∀ (i : Nat) (hi : i < docs.length),
      (merge_pdf_list docs dst wb fs0).bookmarks[i]? =
        some (((docs.take i).map fun d => d.numPages + if wb then 1 else 0).sum,
          docs[i].name) := by
  rw [merge_spec docs dst wb fs0 hr]
  refine ⟨by simp, fun i hi => ?_⟩
  simpa using bmOf_getElem? wb docs 0 i hi

/-- Witness for C1: a directory with `a.pdf` (2 pages) then `b.pdf` (3 pages)
and blank-insertion enabled yields bookmarks `[(0, "a.pdf"), (3, "b.pdf")]`. -/
theorem claim_C1_witness :
    (merge_pdf_list [⟨"a.pdf", 2, true⟩, ⟨"b.pdf", 3, true⟩] "m.pdf" true
      fsEmpty).bookmarks.length = 2 ∧
    (merge_pdf_list [⟨"a.pdf", 2, true⟩, ⟨"b.pdf", 3, true⟩] "m.pdf" true
      fsEmpty).bookmarks[0]? = some (0, "a.pdf") ∧
    (merge_pdf_list [⟨"a.pdf", 2, true⟩, ⟨"b.pdf", 3, true⟩] "m.pdf" true
      fsEmpty).bookmarks[1]? = some (3, "b.pdf") := by
  have h := claim_C1 [⟨"a.pdf", 2, true⟩, ⟨"b.pdf", 3, true⟩] "m.pdf" true fsEmpty
    (by decide)
  refine ⟨h.1, ?_, ?_⟩
  · simpa using h.2 0 (by decide)
  · simpa using h.2 1 (by decide)

/-- Claim C9: for every input page count N (including N = 0), the generated
overlay document has exactly N pages. -/
theorem claim_C9 (n : Nat) (text : String) : (create_page_pdf n text).length = n :=
  length_create_page_pdf n text

/-- Claim C10: for an input directory with no matching PDF file,
`merge_pdf_list` still writes a zero-page document to its destination path and
returns an empty bookmark list, regardless of the `with_blank` flag. -/
theorem claim_C10 (dst : String) (wb : Bool) (fs0 : FS) (hdst : dst ≠ blankTmpPath) :
    (merge_pdf_list [] dst wb fs0).ok = true ∧
    (merge_pdf_list [] dst wb fs0).bookmarks = [] ∧
    (merge_pdf_list [] dst wb fs0).fs dst = some ⟨[], []⟩ := by
  rw [merge_spec [] dst wb fs0 (by simp)]
  refine ⟨rfl, by simp [bmOf], ?_⟩
  simpa [mergedOf, bmOf] using mergeFsOk_dst fs0 dst wb [] hdst

/-- Witness for C10 at a concrete destination, for both flag values. -/
theorem claim_C10_witness :
    (merge_pdf_list [] "out.pdf" true fsEmpty).fs "out.pdf" = some ⟨[], []⟩ ∧
    (merge_pdf_list [] "out.pdf" false fsEmpty).fs "out.pdf" = some ⟨[], []⟩ ∧
    (merge_pdf_list [] "out.pdf" true fsEmpty).bookmarks = [] :=
  ⟨(claim_C10 "out.pdf" true fsEmpty (by decide)).2.2,
   (claim_C10 "out.pdf" false fsEmpty (by decide)).2.2,
   (claim_C10 "out.pdf" true fsEmpty (by decide)).2.1⟩

/-- Claim C6: if the annotator's input cannot be opened or overlay generation
fails, the run fails and the destination path is left untouched. -/
theorem claim_C6 (pdf_path new_path text : String) (bms : List (Nat × String))
    (ook : Bool) (fs : FS) (h : fs pdf_path = none ∨ ook = false) :
    (add_page_numbers pdf_path new_path text bms ook fs).ok = false ∧
    (add_page_numbers pdf_path new_path text bms ook fs).wrote = false ∧
    (add_page_numbers pdf_path new_path text bms ook fs).fs new_path = fs new_path := by
  rcases h with h | h
  · unfold add_page_numbers
    rw [h]
    exact ⟨rfl, rfl, rfl⟩
  · subst h
    unfold add_page_numbers
    cases hf : fs pdf_path with
    | none => exact ⟨rfl, rfl, rfl⟩
    | some file => simp

/-- Witness for C6: an absent input file fails the run and leaves the
destination as it was. -/
theorem claim_C6_witness :
    (add_page_numbers "nope.pdf" "out.pdf" "t" [] true fsEmpty).ok = false ∧
    (add_page_numbers "nope.pdf" "out.pdf" "t" [] true fsEmpty).wrote = false ∧
    (add_page_numbers "nope.pdf" "out.pdf" "t" [] true fsEmpty).fs "out.pdf" =
      fsEmpty "out.pdf" :=
  claim_C6 "nope.pdf" "out.pdf" "t" [] true fsEmpty (Or.inl rfl)

/-- Claim C7: on a zero-page input the annotator completes without error and
skips writing the destination; the output is written if and only if the
composited document has at least one page. -/
theorem claim_C7 (pdf_path new_path text : String) (bms : List (Nat × String))
    (fs : FS) (file : PdfFile) (hfile : fs pdf_path = some file)
    (hnew : new_path ≠ overlayTmpPath) :
    (add_page_numbers pdf_path new_path text bms true fs).ok = true ∧
    ((add_page_numbers pdf_path new_path text bms true fs).wrote = true ↔
      0 < file.pages.length) ∧
    (file.pages.length = 0 →
      (add_page_numbers pdf_path new_path text bms true fs).fs new_path = fs new_path) := by
  rw [annot_spec pdf_path new_path text bms fs file hfile]
  refine ⟨rfl, by simp, fun hz => ?_⟩
  simpa using annotFsOk_new_skip fs new_path text bms file hnew hz

/-- Witness for C7: a zero-page input document ends without error, with no
write to the destination. -/
theorem claim_C7_witness :
    (add_page_numbers "in.pdf" "out.pdf" "t" [] true
      (fun p => if p = "in.pdf" then some ⟨[], []⟩ else none)).ok = true ∧
    (add_page_numbers "in.pdf" "out.pdf" "t" [] true
      (fun p => if p = "in.pdf" then some ⟨[], []⟩ else none)).wrote = false ∧
    (add_page_numbers "in.pdf" "out.pdf" "t" [] true
      (fun p => if p = "in.pdf" then some ⟨[], []⟩ else none)).fs "out.pdf" = none := by
  have h := claim_C7 "in.pdf" "out.pdf" "t" []
    (fun p => if p = "in.pdf" then some ⟨[], []⟩ else none) ⟨[], []⟩ rfl (by decide)
  refine ⟨h.1, ?_, ?_⟩
  · have h2 := h.2.1
    simp only [List.length_nil, Nat.lt_irrefl, iff_false, Bool.not_eq_true] at h2
    exact h2
  · simpa using h.2.2 rfl

/-- Claim C3: the overlay content composited onto page i (1-based) of the
output document is exactly the footer text followed by " page i of N", drawn
in Times-Roman 11, grey, at the fixed bottom-center coordinate
(85 mm, 4 mm) of an A4 page, on every page. -/
theorem claim_C3 (pdf_path new_path text : String) (bms : List (Nat × String))
    (fs : FS) (file : PdfFile) (hfile : fs pdf_path = some file)
    (hnew : new_path ≠ overlayTmpPath) (hpos : 0 < file.pages.length) :
    ∃ out : PdfFile,
      (add_page_numbers pdf_path new_path text bms true fs).fs new_path = some out ∧
      out.pages.length = file.pages.length ∧
      ∀ (i : Nat) (hi : i < file.pages.length),
        out.pages[i]? = some
          { origin := file.pages[i].origin
            stamps := file.pages[i].stamps ++
              [{ text := text ++ " page " ++ toString (i + 1) ++ " of " ++
                    toString file.pages.length,
                 font := "Times-Roman", fontSize := 11, color := "grey",
                 xMm := 85, yMm := 4 }] } := by
  rw [annot_spec pdf_path new_path text bms fs file hfile]
  refine ⟨⟨stampedPages file.pages (create_page_pdf file.pages.length text), bms⟩,
    ?_, by simp, fun i hi => ?_⟩
  · simpa using annotFsOk_new fs new_path text bms file hnew hpos
  · have hio : i < (create_page_pdf file.pages.length text).length := by simpa using hi
    have hov : (create_page_pdf file.pages.length text)[i] =
        ⟨Origin.freshOverlay, [footerStamp text (i + 1) file.pages.length]⟩ := by
      have h2 := getElem?_create_page_pdf file.pages.length text i hi
      rw [List.getElem?_eq_getElem hio] at h2
      exact Option.some.inj h2
    rw [show (PdfFile.mk (stampedPages file.pages (create_page_pdf file.pages.length text))
      bms).pages = stampedPages file.pages (create_page_pdf file.pages.length text) from rfl]
    rw [getElem?_stampedPages file.pages (create_page_pdf file.pages.length text) i hi hio]
    rw [hov]
    simp [Page.mergeOver, footerStamp]

/-- Witness for C3: a one-page input with footer text "t" gets exactly the
stamp "t page 1 of 1" in Times-Roman 11, grey, at (85 mm, 4 mm). -/
theorem claim_C3_witness :
    ∃ out : PdfFile,
      (add_page_numbers "in.pdf" "out.pdf" "t" [] true
        (fun p => if p = "in.pdf" then some ⟨[⟨Origin.srcPage "x" 0, []⟩], []⟩
          else none)).fs "out.pdf" = some out ∧
      out.pages[0]? = some ⟨Origin.srcPage "x" 0,
        [⟨"t page 1 of 1", "Times-Roman", 11, "grey", 85, 4⟩]⟩ := by
  obtain ⟨out, h1, _, h3⟩ := claim_C3 "in.pdf" "out.pdf" "t" []
    (fun p => if p = "in.pdf" then some ⟨[⟨Origin.srcPage "x" 0, []⟩], []⟩ else none)
    ⟨[⟨Origin.srcPage "x" 0, []⟩], []⟩ rfl (by decide) (by decide)
  exact ⟨out, h1, h3 0 (by decide)⟩

/-- Closed form of a fully successful driver run: all sources readable and
overlay generation succeeding. -/
theorem run_spec (docs : List SrcPdf) (output_path footer_text : String)
    (wb : Bool) (fs0 : FS) (hr : ∀ d ∈ docs, d.readable = true) :
    run_main docs output_path footer_text wb true fs0 =
      ⟨true, FS.remove
        (annotFsOk (mergeFsOk fs0 mergedTmpPath wb docs) output_path footer_text
          (bmOf wb 0 docs) ⟨mergedOf wb docs, bmOf wb 0 docs⟩) mergedTmpPath⟩ := by
  have hfile := mergeFsOk_dst fs0 mergedTmpPath wb docs (by decide)
  have hannot := annot_spec mergedTmpPath output_path footer_text (bmOf wb 0 docs)
    (mergeFsOk fs0 mergedTmpPath wb docs) ⟨mergedOf wb docs, bmOf wb 0 docs⟩ hfile
  simp [run_main, merge_spec docs mergedTmpPath wb fs0 hr, hannot]

/-- Claim C2: for every non-empty input directory (with at least one output
page), the page count of the final output document equals the sum of the page
counts of all merged source PDF files plus, when blank-insertion is enabled,
one additional page per source file. -/
theorem claim_C2 (docs : List SrcPdf) (output_path footer_text : String)
    (wb : Bool) (fs0 : FS) (_hne : docs ≠ [])
    (hr : ∀ d ∈ docs, d.readable = true)
    (h1 : output_path ≠ overlayTmpPath) (h2 : output_path ≠ mergedTmpPath)
    (hpos : 0 < (docs.map fun d => d.numPages + if wb then 1 else 0).sum) :
    (run_main docs output_path footer_text wb true fs0).ok = true ∧
    ∃ f : PdfFile,
      (run_main docs output_path footer_text wb true fs0).fs output_path = some f ∧
      f.pages.length = (docs.map fun d => d.numPages + if wb then 1 else 0).sum := by
  rw [run_spec docs output_path footer_text wb fs0 hr]
  refine ⟨rfl, ⟨stampedPages (mergedOf wb docs)
    (create_page_pdf (mergedOf wb docs).length footer_text), bmOf wb 0 docs⟩, ?_, by simp⟩
  simp only [FS.remove, if_neg h2]
  have hpos2 : 0 < (PdfFile.mk (mergedOf wb docs) (bmOf wb 0 docs)).pages.length := by
    simpa using hpos
  simpa using annotFsOk_new (mergeFsOk fs0 mergedTmpPath wb docs) output_path
    footer_text (bmOf wb 0 docs) ⟨mergedOf wb docs, bmOf wb 0 docs⟩ h1 hpos2

/-- Witness for C2: `a.pdf` (2 pages) and `b.pdf` (3 pages) give a 7-page
output with blank-insertion and a 5-page output without. -/
theorem claim_C2_witness :
    ((run_main [⟨"a.pdf", 2, true⟩, ⟨"b.pdf", 3, true⟩] "out.pdf" "t" true true
        fsEmpty).ok = true ∧
      ∃ f : PdfFile,
        (run_main [⟨"a.pdf", 2, true⟩, ⟨"b.pdf", 3, true⟩] "out.pdf" "t" true true
          fsEmpty).fs "out.pdf" = some f ∧ f.pages.length = 7) ∧
    ((run_main [⟨"a.pdf", 2, true⟩, ⟨"b.pdf", 3, true⟩] "out.pdf" "t" false true
        fsEmpty).ok = true ∧
      ∃ f : PdfFile,
        (run_main [⟨"a.pdf", 2, true⟩, ⟨"b.pdf", 3, true⟩] "out.pdf" "t" false true
          fsEmpty).fs "out.pdf" = some f ∧ f.pages.length = 5) := by
  have ht := claim_C2 [⟨"a.pdf", 2, true⟩, ⟨"b.pdf", 3, true⟩] "out.pdf" "t" true
    fsEmpty (by decide) (by decide) (by decide) (by decide) (by decide)
  have hf := claim_C2 [⟨"a.pdf", 2, true⟩, ⟨"b.pdf", 3, true⟩] "out.pdf" "t" false
    fsEmpty (by decide) (by decide) (by decide) (by decide) (by decide)
  obtain ⟨hok1, f1, hfs1, hlen1⟩ := ht
  obtain ⟨hok2, f2, hfs2, hlen2⟩ := hf
  exact ⟨⟨hok1, f1, hfs1, by simpa using hlen1⟩, ⟨hok2, f2, hfs2, by simpa using hlen2⟩⟩

/-- Claim C4: when blank-insertion is enabled, the blank template is created
exactly once per run, before the first source document is processed; every
blank insertion reads the same template file, and the inserted separator page
after each source document is the identical blank A4-format template page. -/
theorem claim_C4 (docs : List SrcPdf) (dst : String) (fs0 : FS)
    (hr : ∀ d ∈ docs, d.readable = true) :
    (merge_pdf_list docs dst true fs0).trace[0]? =
      some (Ev.createBlank blankTmpPath) ∧
    (∀ p, Ev.createBlank p ∉ (merge_pdf_list docs dst true fs0).trace.drop 1) ∧
    (∀ e ∈ (merge_pdf_list docs dst true fs0).trace, ∀ p,
      e = Ev.appendBlankFrom p → p = blankTmpPath) ∧
    (merge_pdf_list docs dst true fs0).merged = mergedOf true docs := by
  rw [merge_spec docs dst true fs0 hr]
  refine ⟨by simp [mergeTrOk], fun p hp => ?_, fun e he p hep => ?_, rfl⟩
  · simp [mergeTrOk] at hp
    rcases trOf_true_mem docs _ hp with ⟨d, hd⟩ | hd <;> simp at hd
  · subst hep
    simp [mergeTrOk] at he
    rcases trOf_true_mem docs _ he with ⟨d, hd⟩ | hd
    · simp at hd
    · simpa using hd

/-- Witness for C4 at a concrete two-document directory. -/
theorem claim_C4_witness :
    (merge_pdf_list [⟨"a.pdf", 2, true⟩, ⟨"b.pdf", 3, true⟩] "m.pdf" true
      fsEmpty).trace[0]? = some (Ev.createBlank blankTmpPath) ∧
    (∀ p, Ev.createBlank p ∉ (merge_pdf_list [⟨"a.pdf", 2, true⟩, ⟨"b.pdf", 3, true⟩]
      "m.pdf" true fsEmpty).trace.drop 1) ∧
    (∀ e ∈ (merge_pdf_list [⟨"a.pdf", 2, true⟩, ⟨"b.pdf", 3, true⟩] "m.pdf" true
      fsEmpty).trace, ∀ p, e = Ev.appendBlankFrom p → p = blankTmpPath) ∧
    (merge_pdf_list [⟨"a.pdf", 2, true⟩, ⟨"b.pdf", 3, true⟩] "m.pdf" true
      fsEmpty).merged = mergedOf true [⟨"a.pdf", 2, true⟩, ⟨"b.pdf", 3, true⟩] :=
  claim_C4 [⟨"a.pdf", 2, true⟩, ⟨"b.pdf", 3, true⟩] "m.pdf" fsEmpty (by decide)

/-- Counterexample to C5 as stated: a run whose annotation stage fails (here:
overlay generation fails) exits with the intermediate merged file `./tmp.pdf`
still on disk, because its deletion is an explicit step after the annotator
that is skipped when an exception propagates. -/
theorem claim_C5_counterexample :
    (run_main [⟨"a.pdf", 2, true⟩] "out.pdf" "t" true false fsEmpty).ok = false ∧
    ((run_main [⟨"a.pdf", 2, true⟩] "out.pdf" "t" true false fsEmpty).fs
      mergedTmpPath).isSome = true := by
  decide

/-- Claim C5 (amended): on every successful run all temporary artifacts (the
blank-page template `--tmp.pdf`, the overlay helper `__tmp.pdf`, and the
intermediate merged file `./tmp.pdf`) are deleted before the process exits; a
run that fails partway may leave temporary files behind. -/
theorem claim_C5 (docs : List SrcPdf) (output_path footer_text : String)
    (wb : Bool) (fs0 : FS) (hr : ∀ d ∈ docs, d.readable = true)
    (h0b : fs0 blankTmpPath = none) (hout : output_path ≠ blankTmpPath) :
    (run_main docs output_path footer_text wb true fs0).ok = true ∧
    (run_main docs output_path footer_text wb true fs0).fs blankTmpPath = none ∧
    (run_main docs output_path footer_text wb true fs0).fs overlayTmpPath = none ∧
    (run_main docs output_path footer_text wb true fs0).fs mergedTmpPath = none := by
  rw [run_spec docs output_path footer_text wb fs0 hr]
  refine ⟨rfl, ?_, ?_, by simp [FS.remove]⟩
  · simp only [FS.remove, if_neg (show blankTmpPath ≠ mergedTmpPath by decide)]
    rw [annotFsOk_other _ _ _ _ _ _ (Ne.symm hout) (by decide)]
    exact mergeFsOk_blankTmp fs0 mergedTmpPath wb docs h0b (by decide)
  · simp only [FS.remove, if_neg (show overlayTmpPath ≠ mergedTmpPath by decide)]
    exact annotFsOk_overlayTmp _ _ _ _ _

/-- Witness for the amended C5: a successful two-stage run on one readable
source leaves none of the three temporary files. -/
theorem claim_C5_witness :
    (run_main [⟨"a.pdf", 2, true⟩] "out.pdf" "t" true true fsEmpty).ok = true ∧
    (run_main [⟨"a.pdf", 2, true⟩] "out.pdf" "t" true true fsEmpty).fs
      blankTmpPath = none ∧
    (run_main [⟨"a.pdf", 2, true⟩] "out.pdf" "t" true true fsEmpty).fs
      overlayTmpPath = none ∧
    (run_main [⟨"a.pdf", 2, true⟩] "out.pdf" "t" true true fsEmpty).fs
      mergedTmpPath = none :=
  claim_C5 [⟨"a.pdf", 2, true⟩] "out.pdf" "t" true fsEmpty (by decide) rfl (by decide)

/-- Counterexample to C8 as stated: with a zero-page source PDF and
blank-insertion disabled the page cursor does not advance, so two consecutive
bookmarks share the same pageIndex and the list is not strictly increasing. -/
theorem claim_C8_counterexample :
    (merge_pdf_list [⟨"a.pdf", 0, true⟩, ⟨"b.pdf", 3, true⟩] "m.pdf" false
      fsEmpty).bookmarks = [(0, "a.pdf"), (0, "b.pdf")] ∧
    ¬ List.Pairwise (fun a b : Nat × String => a.1 < b.1)
      (merge_pdf_list [⟨"a.pdf", 0, true⟩, ⟨"b.pdf", 3, true⟩] "m.pdf" false
        fsEmpty).bookmarks := by
  decide

/-- Claim C8 (amended): the bookmark entries are in one-to-one correspondence
with the merged source documents, in merge order, with nondecreasing
pageIndex; the pageIndexes are strictly increasing whenever blank-insertion is
enabled or every source PDF has at least one page. -/
theorem claim_C8 (docs : List SrcPdf) (dst : String) (wb : Bool) (fs0 : FS)
    (hr : ∀ d ∈ docs, d.readable = true) :
    (merge_pdf_list docs dst wb fs0).bookmarks.length = docs.length ∧
    (merge_pdf_list docs dst wb fs0).bookmarks.map Prod.snd = docs.map SrcPdf.name ∧
    List.Pairwise (fun a b : Nat × String => a.1 ≤ b.1)
      (merge_pdf_list docs dst wb fs0).bookmarks ∧
    ((wb = true ∨ ∀ d ∈ docs, 0 < d.numPages) →
      List.Pairwise (fun a b : Nat × String => a.1 < b.1)
        (merge_pdf_list docs dst wb fs0).bookmarks) := by
  rw [merge_spec docs dst wb fs0 hr]
  refine ⟨by simp, by simpa using bmOf_map_snd wb docs 0,
    by simpa using bmOf_pairwise_le wb docs 0, fun hp => ?_⟩
  have hpos : ∀ d ∈ docs, 0 < d.numPages + if wb then 1 else 0 := by
    rcases hp with rfl | hp
    · intro d _; simp
    · intro d hd
      cases wb with
      | false => simpa using hp d hd
      | true => simp
  simpa using bmOf_pairwise_lt wb docs hpos 0

/-- Witness for the amended C8 at a concrete directory, with blank-insertion
disabled and every source non-empty (strict increase applies). -/
theorem claim_C8_witness :
    (merge_pdf_list [⟨"a.pdf", 2, true⟩, ⟨"b.pdf", 3, true⟩] "m.pdf" false
      fsEmpty).bookmarks.length = 2 ∧
    (merge_pdf_list [⟨"a.pdf", 2, true⟩, ⟨"b.pdf", 3, true⟩] "m.pdf" false
      fsEmpty).bookmarks.map Prod.snd = ["a.pdf", "b.pdf"] ∧
    List.Pairwise (fun a b : Nat × String => a.1 ≤ b.1)
      (merge_pdf_list [⟨"a.pdf", 2, true⟩, ⟨"b.pdf", 3, true⟩] "m.pdf" false
        fsEmpty).bookmarks ∧
    List.Pairwise (fun a b : Nat × String => a.1 < b.1)
      (merge_pdf_list [⟨"a.pdf", 2, true⟩, ⟨"b.pdf", 3, true⟩] "m.pdf" false
        fsEmpty).bookmarks := by
  have h := claim_C8 [⟨"a.pdf", 2, true⟩, ⟨"b.pdf", 3, true⟩] "m.pdf" false fsEmpty
    (by decide)
  exact ⟨h.1, h.2.1, h.2.2.1, h.2.2.2 (Or.inr (by decide))⟩

end PdfTools
